import Mathlib

/-!
Shallow embedding of the libbsdf directional sampling core and proofs about it.

The embedding covers:
* `Vec3` and the helpers of `Common/Utility.h` (`isEqual`, `fixDownwardDir`,
  `isDownwardDir`, `convertCoordinateSystem`);
* the spherical coordinate system (modelled from the spec, since the
  `SphericalCoordinateSystem` header is not part of the sources at hand);
* the `Sampler` query overloads of `Brdf/Sampler.h`;
* the `SampleSet2D` grid of `Brdf/SampleSet2D.cpp` (constructor, angle and
  wavelength resizing);
* `WardAnisotropic::getResult` of `ReflectanceModel/WardAnisotropic.h`.

Machine floats are modelled by real numbers; a C++ `assert` is modelled by an
`Option` result that is `none` exactly when the asserted condition fails, and a
floating-point computation that would produce a non-finite value (division by
zero, square root of a negative number) is likewise modelled by `none`.
-/

namespace Libbsdf

/-- Three-component vector, the embedding of `lb::Vec3` (values are modelled
by real numbers). -/
structure Vec3 where
  x : ℝ
  y : ℝ
  z : ℝ

/-- Componentwise sum of two vectors. -/
def Vec3.add (a b : Vec3) : Vec3 :=
  ⟨a.x + b.x, a.y + b.y, a.z + b.z⟩

instance : Add Vec3 := ⟨Vec3.add⟩

/-- Dot product, the embedding of `Eigen`'s `dot`. -/
def Vec3.dot (a b : Vec3) : ℝ :=
  a.x * b.x + a.y * b.y + a.z * b.z

/-- Euclidean norm of a vector. -/
noncomputable def Vec3.norm (a : Vec3) : ℝ :=
  Real.sqrt (a.dot a)

/-- The embedding of `Eigen`'s `normalized()` / `normalize()`: division of
every component by the norm. -/
noncomputable def Vec3.normalized (a : Vec3) : Vec3 :=
  ⟨a.x / a.norm, a.y / a.norm, a.z / a.norm⟩

/-- Machine epsilon of the C++ `float` type, `std::numeric_limits<float>::epsilon()`. -/
noncomputable def EPSILON_F : ℝ := 1 / 2 ^ 23

/-- Embedding of `lb::isEqual` from `Common/Utility.h`: comparison up to a
relative tolerance of two machine epsilons. -/
def isEqual (lhs rhs : ℝ) : Prop :=
  |lhs - rhs| ≤ EPSILON_F * max (max |lhs| |rhs|) 1 * 2

/-- Embedding of `lb::fixDownwardDir` from `Common/Utility.h`: a direction
with a negative z-component has the z-component zeroed and is renormalized,
except that the degenerate vector with zero x- and y-components becomes the
unit x-vector. -/
noncomputable def fixDownwardDir (d : Vec3) : Vec3 :=
  if d.z < 0 then
    if d.x = 0 ∧ d.y = 0 then ⟨1, 0, 0⟩
    else Vec3.normalized ⟨d.x, d.y, 0⟩
  else d

/-- Embedding of `lb::isDownwardDir` from `Common/Utility.h`. -/
def isDownwardDir (d : Vec3) : Prop :=
  d.z < -(1 / 100000)

/-- A coordinate system: the static interface the `Sampler` and
`convertCoordinateSystem` templates instantiate.  `fromXyz3` is the reduced
three-angle overload used for isotropic grids, `fromXyz4` and `toXyz4` the
full four-angle overloads. -/
structure CoordSys where
  fromXyz3 : Vec3 → Vec3 → ℝ × ℝ × ℝ
  fromXyz4 : Vec3 → Vec3 → ℝ × ℝ × ℝ × ℝ
  toXyz4 : ℝ → ℝ → ℝ → ℝ → Vec3 × Vec3

/-- Embedding of `lb::convertCoordinateSystem` from `Common/Utility.h`:
convert the source angles to a direction pair with the source system, then
back to angles with the destination system. -/
def convertCoordinateSystem (src dest : CoordSys) (a0 a1 a2 a3 : ℝ) :
    ℝ × ℝ × ℝ × ℝ :=
  let dirs := src.toXyz4 a0 a1 a2 a3
  dest.fromXyz4 dirs.1 dirs.2

namespace SphericalCoordinateSystem

/-- Modelled from the spec: the `SphericalCoordinateSystem` header is not
among the sources at hand; the spec describes a stateless, pure bidirectional
mapping between a direction and a (polar, azimuthal) angle pair, with the
polar angle computed as `acos` of the z-component (spec §4.4) and polar
domain `[0, π/2]`, azimuthal domain `[0, 2π)`.  `dirFromAngles` maps a
(polar, azimuthal) pair to the unit direction it parameterizes. -/
noncomputable def dirFromAngles (theta phi : ℝ) : Vec3 :=
  ⟨Real.sin theta * Real.cos phi, Real.sin theta * Real.sin phi, Real.cos theta⟩

/-- Modelled from the spec: the azimuthal angle of a direction, in `[0, 2π)`,
recovered from the x- and y-components (the planar angle, shifted by a full
turn when negative). -/
noncomputable def azimuth (d : Vec3) : ℝ :=
  let a := Complex.arg ⟨d.x, d.y⟩
  if a < 0 then a + 2 * Real.pi else a

/-- Modelled from the spec: the (polar, azimuthal) angle pair of one
direction; the polar angle is `acos` of the z-component. -/
noncomputable def anglesFromDir (d : Vec3) : ℝ × ℝ :=
  (Real.arccos d.z, azimuth d)

/-- Modelled from the spec: `SphericalCoordinateSystem::toXyz` for the full
four-angle tuple (incoming polar, incoming azimuthal, outgoing polar,
outgoing azimuthal). -/
noncomputable def toXyz (a0 a1 a2 a3 : ℝ) : Vec3 × Vec3 :=
  (dirFromAngles a0 a1, dirFromAngles a2 a3)

/-- Modelled from the spec: `SphericalCoordinateSystem::fromXyz` for the full
four-angle tuple. -/
noncomputable def fromXyz (inDir outDir : Vec3) : ℝ × ℝ × ℝ × ℝ :=
  ((anglesFromDir inDir).1, (anglesFromDir inDir).2,
   (anglesFromDir outDir).1, (anglesFromDir outDir).2)

/-- The spherical coordinate system packaged as a `CoordSys` (the reduced
three-angle overload drops the incoming azimuthal angle, per the spec's
isotropy rule; it is unused by the round-trip development). -/
noncomputable def coordSys : CoordSys where
  fromXyz3 := fun inDir outDir =>
    ((anglesFromDir inDir).1, (anglesFromDir outDir).1, (anglesFromDir outDir).2)
  fromXyz4 := fromXyz
  toXyz4 := toXyz

end SphericalCoordinateSystem

/-- The sample set of a BRDF, the embedding of `lb::SampleSet` as far as the
`Sampler` dispatch needs it: the stored spectra and axes are only passed
through to the interpolator, so they stay abstract behind the interpolator
interface; the isotropy flag (`SampleSet::isIsotropic`) drives the dispatch. -/
structure SampleSet where
  isotropic : Bool

/-- Spectrum values (one scalar per wavelength). -/
abbrev Spectrum := List ℝ

/-- An interpolator: the static interface the `Sampler` templates instantiate,
with the reduced three-angle overloads used for isotropic grids and the full
four-angle overloads used for anisotropic grids. -/
structure Interpolator where
  getSpectrum3 : SampleSet → ℝ → ℝ → ℝ → Spectrum
  getSpectrum4 : SampleSet → ℝ → ℝ → ℝ → ℝ → Spectrum
  getValue3 : SampleSet → ℝ → ℝ → ℝ → ℕ → ℝ
  getValue4 : SampleSet → ℝ → ℝ → ℝ → ℝ → ℕ → ℝ

/-- A BRDF, the embedding of `lb::Brdf` as far as the `Sampler` needs it: it
owns a sample set (`Brdf::getSampleSet`) and its virtual `fromXyz` overloads
delegate to one concrete coordinate system. -/
structure Brdf where
  sampleSet : SampleSet
  coordSys : CoordSys

namespace Sampler

/-- Embedding of the coordinate-system-templated
`Sampler::getSpectrum(SampleSet, inDir, outDir, spectrum)` overload
(`Brdf/Sampler.h`): the `assert(inDir.z() >= 0.0)` is modelled by `none` on
violation; an isotropic grid uses the three-angle conversion and three-angle
interpolation, an anisotropic grid the four-angle ones. -/
noncomputable def getSpectrumSS (cs : CoordSys) (interp : Interpolator)
    (samples : SampleSet) (inDir outDir : Vec3) : Option Spectrum :=
  if 0 ≤ inDir.z then
    if samples.isotropic then
      some (interp.getSpectrum3 samples (cs.fromXyz3 inDir outDir).1
        (cs.fromXyz3 inDir outDir).2.1 (cs.fromXyz3 inDir outDir).2.2)
    else
      some (interp.getSpectrum4 samples (cs.fromXyz4 inDir outDir).1
        (cs.fromXyz4 inDir outDir).2.1 (cs.fromXyz4 inDir outDir).2.2.1
        (cs.fromXyz4 inDir outDir).2.2.2)
  else none

/-- Embedding of the coordinate-system-templated
`Sampler::getValue(SampleSet, inDir, outDir, wavelengthIndex)` overload. -/
noncomputable def getValueSS (cs : CoordSys) (interp : Interpolator)
    (samples : SampleSet) (inDir outDir : Vec3) (wavelengthIndex : ℕ) :
    Option ℝ :=
  if 0 ≤ inDir.z then
    if samples.isotropic then
      some (interp.getValue3 samples (cs.fromXyz3 inDir outDir).1
        (cs.fromXyz3 inDir outDir).2.1 (cs.fromXyz3 inDir outDir).2.2
        wavelengthIndex)
    else
      some (interp.getValue4 samples (cs.fromXyz4 inDir outDir).1
        (cs.fromXyz4 inDir outDir).2.1 (cs.fromXyz4 inDir outDir).2.2.1
        (cs.fromXyz4 inDir outDir).2.2.2 wavelengthIndex)
  else none

/-- Embedding of the `Sampler::getSpectrum(Brdf, inDir, outDir, spectrum)`
overload: the angles come from the BRDF's own coordinate system via its
virtual `fromXyz`, the sample set from `Brdf::getSampleSet`. -/
noncomputable def getSpectrumBrdf (interp : Interpolator) (brdf : Brdf)
    (inDir outDir : Vec3) : Option Spectrum :=
  if 0 ≤ inDir.z then
    if brdf.sampleSet.isotropic then
      some (interp.getSpectrum3 brdf.sampleSet
        (brdf.coordSys.fromXyz3 inDir outDir).1
        (brdf.coordSys.fromXyz3 inDir outDir).2.1
        (brdf.coordSys.fromXyz3 inDir outDir).2.2)
    else
      some (interp.getSpectrum4 brdf.sampleSet
        (brdf.coordSys.fromXyz4 inDir outDir).1
        (brdf.coordSys.fromXyz4 inDir outDir).2.1
        (brdf.coordSys.fromXyz4 inDir outDir).2.2.1
        (brdf.coordSys.fromXyz4 inDir outDir).2.2.2)
  else none

/-- Embedding of the `Sampler::getValue(Brdf, inDir, outDir, wavelengthIndex)`
overload. -/
noncomputable def getValueBrdf (interp : Interpolator) (brdf : Brdf)
    (inDir outDir : Vec3) (wavelengthIndex : ℕ) : Option ℝ :=
  if 0 ≤ inDir.z then
    if brdf.sampleSet.isotropic then
      some (interp.getValue3 brdf.sampleSet
        (brdf.coordSys.fromXyz3 inDir outDir).1
        (brdf.coordSys.fromXyz3 inDir outDir).2.1
        (brdf.coordSys.fromXyz3 inDir outDir).2.2 wavelengthIndex)
    else
      some (interp.getValue4 brdf.sampleSet
        (brdf.coordSys.fromXyz4 inDir outDir).1
        (brdf.coordSys.fromXyz4 inDir outDir).2.1
        (brdf.coordSys.fromXyz4 inDir outDir).2.2.1
        (brdf.coordSys.fromXyz4 inDir outDir).2.2.2 wavelengthIndex)
  else none

/-- The single dispatch rule the spec demands of every query path: an
isotropic grid uses the reduced three-angle conversion and the three-angle
interpolation, an anisotropic grid the full four-angle conversion and
interpolation.  Stated once here so that each query overload can be proved
equal to it. -/
noncomputable def isotropyDispatch {α : Type} (cs : CoordSys)
    (f3 : ℝ → ℝ → ℝ → α) (f4 : ℝ → ℝ → ℝ → ℝ → α) (isotropic : Bool)
    (inDir outDir : Vec3) : α :=
  if isotropic then
    f3 (cs.fromXyz3 inDir outDir).1 (cs.fromXyz3 inDir outDir).2.1
      (cs.fromXyz3 inDir outDir).2.2
  else
    f4 (cs.fromXyz4 inDir outDir).1 (cs.fromXyz4 inDir outDir).2.1
      (cs.fromXyz4 inDir outDir).2.2.1 (cs.fromXyz4 inDir outDir).2.2.2

end Sampler

/-- Color model of a sample set, the embedding of `lb::ColorModel`:
monochromatic, RGB-like (the non-spectral three-channel models), or full
spectral. -/
inductive ColorModel where
  | monochromatic
  | rgb
  | spectral
deriving DecidableEq

/-- Modelled from the spec: the maximum polar angle of the spherical
coordinate system (`SphericalCoordinateSystem::MAX_ANGLE0`, constant in the
missing header); the spec fixes the polar domain to `[0, π/2]`. -/
noncomputable def MAX_ANGLE0 : ℝ := Real.pi / 2

/-- Modelled from the spec: the maximum azimuthal angle
(`SphericalCoordinateSystem::MAX_ANGLE1`); the spec fixes the azimuthal
domain to `[0, 2π)`. -/
noncomputable def MAX_ANGLE1 : ℝ := 2 * Real.pi

/-- Evenly spaced values, the embedding of `Arrayf::LinSpaced(n, lo, hi)`. -/
noncomputable def linSpaced (n : ℕ) (lo hi : ℝ) : List ℝ :=
  (List.range n).map (fun i => lo + (hi - lo) * i / (n - 1 : ℕ))

/-- The 2-axis direction-only sample grid, the embedding of
`lb::SampleSet2D`: a theta axis, a phi axis, one spectrum per (theta, phi)
cell stored in a flat array, the shared wavelength array, and a color
model. -/
structure SampleSet2D where
  thetaAngles : List ℝ
  phiAngles : List ℝ
  spectra : List Spectrum
  wavelengths : List ℝ
  colorModel : ColorModel

namespace SampleSet2D

/-- Modelled from the spec: `SampleSet2D::isIsotropic` lives in the missing
header; per the spec the isotropy flag of a direction-only grid tells whether
the azimuthal axis participates, which for a 2-axis grid means the phi axis
is trivial (a single entry). -/
def isIsotropic (s : SampleSet2D) : Bool :=
  s.phiAngles.length == 1

/-- The color-model constraint of the `SampleSet2D` constructor: a
monochromatic grid stores 1 wavelength, a non-spectral grid 3, a spectral
grid the requested count. -/
def constrainedWavelengths (colorModel : ColorModel) (numWavelengths : ℕ) : ℕ :=
  if colorModel = ColorModel.monochromatic then 1
  else if colorModel ≠ ColorModel.spectral then 3
  else numWavelengths

/-- Embedding of the `SampleSet2D` constructor (`Brdf/SampleSet2D.cpp`): the
asserts `numTheta > 0 && numPhi > 0` and `numWavelengths > 0` are modelled by
`none` on violation; the axes are filled evenly when `equalIntervalAngles`
is set and are otherwise merely allocated (uninitialized storage is modelled
by zeros); every cell's spectrum and the wavelength array are allocated with
the color-model-constrained wavelength count. -/
noncomputable def construct (numTheta numPhi : ℕ) (colorModel : ColorModel)
    (numWavelengths : ℕ) (equalIntervalAngles : Bool) : Option SampleSet2D :=
  if 0 < numTheta ∧ 0 < numPhi then
    let numSamples := numTheta * numPhi
    let nw := constrainedWavelengths colorModel numWavelengths
    if 0 < nw then
      some
        { thetaAngles :=
            if equalIntervalAngles then linSpaced numTheta 0 MAX_ANGLE0
            else List.replicate numTheta 0
          phiAngles :=
            if equalIntervalAngles then linSpaced numPhi 0 MAX_ANGLE1
            else List.replicate numPhi 0
          spectra := List.replicate numSamples (List.replicate nw 0)
          wavelengths := List.replicate nw 0
          colorModel := colorModel }
    else none
  else none

/-- Embedding of `SampleSet2D::resizeAngles`: the assert
`numTheta > 0 && numPhi > 0` is modelled by `none`; the cell array is resized
to the new product with `std::vector::resize` semantics (surviving cells keep
their contents, new cells are default-constructed empty spectra); the Eigen
angle arrays keep their values when the length is unchanged and otherwise
hold unspecified values (modelled by zeros). -/
def resizeAngles (s : SampleSet2D) (numTheta numPhi : ℕ) :
    Option SampleSet2D :=
  if 0 < numTheta ∧ 0 < numPhi then
    let numSamples := numTheta * numPhi
    some
      { s with
        spectra := s.spectra.take numSamples
          ++ List.replicate (numSamples - s.spectra.length) []
        thetaAngles :=
          if s.thetaAngles.length = numTheta then s.thetaAngles
          else List.replicate numTheta 0
        phiAngles :=
          if s.phiAngles.length = numPhi then s.phiAngles
          else List.replicate numPhi 0 }
  else none

/-- Embedding of `SampleSet2D::resizeWavelengths`: the assert
`numWavelengths > 0` is modelled by `none`; the loop writes a fresh spectrum
of the new length into every cell index below `numTheta * numPhi` through
`std::vector::at`, whose out-of-range exception is modelled by `none`; the
wavelength array is resized (fresh storage modelled by zeros). -/
def resizeWavelengths (s : SampleSet2D) (numWavelengths : ℕ) :
    Option SampleSet2D :=
  if 0 < numWavelengths then
    let numSamples := s.thetaAngles.length * s.phiAngles.length
    if numSamples ≤ s.spectra.length then
      some
        { s with
          spectra := s.spectra.mapIdx (fun i sp =>
            if i < numSamples then List.replicate numWavelengths 0 else sp)
          wavelengths := List.replicate numWavelengths 0 }
    else none
  else none

end SampleSet2D

/-- An interpolator over the 2-axis grid: the static interface the
`SampleSet2D` overload of the `Sampler` instantiates, with the one-angle
overload used for isotropic grids and the two-angle overload otherwise. -/
structure Interpolator2D where
  getSpectrum1 : SampleSet2D → ℝ → Spectrum
  getSpectrum2 : SampleSet2D → ℝ → ℝ → Spectrum

/-- Embedding of the `Sampler::getSpectrum(SampleSet2D, inDir, spectrum)`
overload (`Brdf/Sampler.h`): this overload performs no assertion at all, so
the result is always `some`; an isotropic grid uses only the polar angle
`acos(inDir[2])`, an anisotropic grid the polar and azimuthal angles from
`SphericalCoordinateSystem::fromXyz`. -/
noncomputable def Sampler.getSpectrumSS2 (interp : Interpolator2D)
    (ss2 : SampleSet2D) (inDir : Vec3) : Option Spectrum :=
  if ss2.isIsotropic then
    some (interp.getSpectrum1 ss2 (Real.arccos inDir.z))
  else
    some (interp.getSpectrum2 ss2
      (SphericalCoordinateSystem.anglesFromDir inDir).1
      (SphericalCoordinateSystem.anglesFromDir inDir).2)

/-- Embedding of `WardAnisotropic::getResult`
(`ReflectanceModel/WardAnisotropic.h`).  A floating-point subcomputation that
would produce a non-finite value is modelled by `none`: normalizing the zero
vector, a zero or negative radicand turning `1 / sqrt(dotLN * dotVN)` into a
division by zero or NaN, a zero roughness, and a vanishing `1 + dotHN`
denominator. -/
noncomputable def WardAnisotropic.getResult (inDir outDir normalDir
    tangentDir binormalDir : Vec3) (roughnessX roughnessY : ℝ) : Option ℝ :=
  let dotLN := inDir.dot normalDir
  let dotVN := outDir.dot normalDir
  let s := inDir + outDir
  if s.norm = 0 then none
  else if roughnessX = 0 ∨ roughnessY = 0 then none
  else
    let H := s.normalized
    let dotHN := H.dot normalDir
    let dotHT := H.dot tangentDir
    let dotHB := H.dot binormalDir
    let sqDotHT := (dotHT / roughnessX) * (dotHT / roughnessX)
    let sqDotHB := (dotHB / roughnessY) * (dotHB / roughnessY)
    if Real.sqrt (dotLN * dotVN) = 0 then none
    else if 1 + dotHN = 0 then none
    else
      some (1 / Real.sqrt (dotLN * dotVN)
        * Real.exp (-2 * (sqDotHT + sqDotHB) / (1 + dotHN))
        / (4 * Real.pi * roughnessX * roughnessY))

/-- Embedding of `WardAnisotropic::getValue`: `getResult` in the standard
shading frame `N = (0,0,1)`, `T = (1,0,0)`, `B = (0,-1,0)`. -/
noncomputable def WardAnisotropic.getValue (inDir outDir : Vec3)
    (roughnessX roughnessY : ℝ) : Option ℝ :=
  WardAnisotropic.getResult inDir outDir ⟨0, 0, 1⟩ ⟨1, 0, 0⟩ ⟨0, -1, 0⟩
    roughnessX roughnessY

/-- A trivial coordinate system used to instantiate witness statements. -/
def testCoordSys : CoordSys where
  fromXyz3 := fun _ _ => (0, 0, 0)
  fromXyz4 := fun _ _ => (0, 0, 0, 0)
  toXyz4 := fun _ _ _ _ => (⟨0, 0, 1⟩, ⟨0, 0, 1⟩)

/-- A trivial interpolator used to instantiate witness statements. -/
def testInterpolator : Interpolator where
  getSpectrum3 := fun _ _ _ _ => []
  getSpectrum4 := fun _ _ _ _ _ => []
  getValue3 := fun _ _ _ _ _ => 0
  getValue4 := fun _ _ _ _ _ _ => 0

/-- A trivial 2-axis interpolator used to instantiate witness statements. -/
def testInterpolator2D : Interpolator2D where
  getSpectrum1 := fun _ _ => []
  getSpectrum2 := fun _ _ _ => []

/-- A concrete isotropic 2-axis grid (one phi entry) used in witness
statements. -/
def testGrid2DIso : SampleSet2D where
  thetaAngles := [0, 1]
  phiAngles := [0]
  spectra := [[5], [7]]
  wavelengths := [0]
  colorModel := ColorModel.spectral

/-- A concrete anisotropic 2-axis grid (two phi entries) used in witness
statements. -/
def testGrid2DAniso : SampleSet2D where
  thetaAngles := [0]
  phiAngles := [0, 1]
  spectra := [[5], [7]]
  wavelengths := [0]
  colorModel := ColorModel.spectral

/-- A concrete one-cell grid whose only cell holds the spectrum `[5]`, used
to exhibit that `resizeAngles` retains surviving cells. -/
def testGrid2DOneCell : SampleSet2D where
  thetaAngles := [0]
  phiAngles := [0]
  spectra := [[5]]
  wavelengths := [0]
  colorModel := ColorModel.spectral

/-- Components of a vector sum. -/
theorem Vec3.add_def (a b : Vec3) :
    a + b = ⟨a.x + b.x, a.y + b.y, a.z + b.z⟩ := rfl

/-- The azimuth of a direction built from a (polar, azimuthal) pair is the
azimuthal angle back, provided the polar angle has positive sine (so the
direction is not on the z-axis) and the azimuthal angle lies in `[0, 2π)`. -/
theorem SphericalCoordinateSystem.azimuth_dirFromAngles {theta phi : ℝ} (hs : 0 < Real.sin theta)
    (h0 : 0 ≤ phi) (h2 : phi < 2 * Real.pi) :
    azimuth (dirFromAngles theta phi) = phi := by
  have hmk : (⟨Real.sin theta * Real.cos phi, Real.sin theta * Real.sin phi⟩ : ℂ)
      = (Real.sin theta : ℂ) * (Complex.cos phi + Complex.sin phi * Complex.I) := by
    apply Complex.ext <;>
      simp [Complex.cos_ofReal_re, Complex.sin_ofReal_re]
  have harg : Complex.arg ⟨Real.sin theta * Real.cos phi, Real.sin theta * Real.sin phi⟩
      = Complex.arg (Complex.cos phi + Complex.sin phi * Complex.I) := by
    rw [hmk, Complex.arg_real_mul _ hs]
  rcases le_or_lt phi Real.pi with hle | hgt
  · have hmem : phi ∈ Set.Ioc (-Real.pi) Real.pi :=
      ⟨lt_of_lt_of_le (neg_neg_iff_pos.mpr Real.pi_pos) h0, hle⟩
    have : Complex.arg (Complex.cos phi + Complex.sin phi * Complex.I) = phi :=
      Complex.arg_cos_add_sin_mul_I hmem
    unfold azimuth dirFromAngles
    simp only [harg, this]
    rw [if_neg (not_lt.mpr h0)]
  · have hmem : phi - 2 * Real.pi ∈ Set.Ioc (-Real.pi) Real.pi := by
      constructor
      · nlinarith [Real.pi_pos]
      · nlinarith [Real.pi_pos]
    have hcos : Complex.cos (phi : ℂ) = Complex.cos ((phi - 2 * Real.pi : ℝ) : ℂ) := by
      rw [← Complex.ofReal_cos, ← Complex.ofReal_cos, Real.cos_sub_two_pi]
    have hsin : Complex.sin (phi : ℂ) = Complex.sin ((phi - 2 * Real.pi : ℝ) : ℂ) := by
      rw [← Complex.ofReal_sin, ← Complex.ofReal_sin, Real.sin_sub_two_pi]
    have : Complex.arg (Complex.cos phi + Complex.sin phi * Complex.I) = phi - 2 * Real.pi := by
      rw [hcos, hsin]
      exact Complex.arg_cos_add_sin_mul_I hmem
    unfold azimuth dirFromAngles
    simp only [harg, this]
    rw [if_pos (by nlinarith [Real.pi_pos])]
    ring

/-- Round trip of a single direction's angles: for a polar angle in `(0, π]`
and an azimuthal angle in `[0, 2π)`, converting to a direction and back
recovers both angles. -/
theorem SphericalCoordinateSystem.anglesFromDir_dirFromAngles {theta phi : ℝ}
    (ht0 : 0 < theta) (htp : theta ≤ Real.pi) (hp0 : 0 ≤ phi)
    (hp2 : phi < 2 * Real.pi) (hs : 0 < Real.sin theta) :
    anglesFromDir (dirFromAngles theta phi) = (theta, phi) := by
  unfold anglesFromDir
  have hz : (dirFromAngles theta phi).z = Real.cos theta := rfl
  rw [hz, Real.arccos_cos ht0.le htp, azimuth_dirFromAngles hs hp0 hp2]

/-- C9: `fixDownwardDir` leaves a vector with non-negative z-component
unchanged; a vector with negative z-component has the z-component set to 0
and is renormalized; the fully degenerate downward case with zero x- and
y-components becomes the unit x-vector; and in every case the resulting
z-component is non-negative. -/
theorem C9_fixDownwardDir_spec (d : Vec3) :
    0 ≤ (fixDownwardDir d).z ∧
    (0 ≤ d.z → fixDownwardDir d = d) ∧
    (d.z < 0 → d.x = 0 → d.y = 0 → fixDownwardDir d = ⟨1, 0, 0⟩) ∧
    (d.z < 0 → ¬(d.x = 0 ∧ d.y = 0) →
      fixDownwardDir d = Vec3.normalized ⟨d.x, d.y, 0⟩ ∧
        (fixDownwardDir d).z = 0) := by
  unfold fixDownwardDir
  by_cases hz : d.z < 0
  · rw [if_pos hz]
    by_cases hxy : d.x = 0 ∧ d.y = 0
    · rw [if_pos hxy]
      refine ⟨by norm_num, fun h => absurd h (not_le.mpr hz),
        fun _ _ _ => rfl, fun _ h => absurd hxy h⟩
    · rw [if_neg hxy]
      refine ⟨?_, fun h => absurd h (not_le.mpr hz),
        fun _ hx hy => absurd ⟨hx, hy⟩ hxy, fun _ _ => ⟨rfl, ?_⟩⟩ <;>
        simp [Vec3.normalized]
  · rw [if_neg hz]
    push_neg at hz
    exact ⟨hz, fun _ => rfl, fun h => absurd h (not_lt.mpr hz),
      fun h => absurd h (not_lt.mpr hz)⟩

/-- C9 witness: the three branches of `fixDownwardDir` at concrete inputs:
an upward vector is unchanged, the degenerate downward z-axis vector becomes
the unit x-vector, and a generic downward vector is flattened and
renormalized. -/
theorem C9_fixDownwardDir_witness :
    fixDownwardDir ⟨0, 0, 1⟩ = ⟨0, 0, 1⟩ ∧
    fixDownwardDir ⟨0, 0, -1⟩ = ⟨1, 0, 0⟩ ∧
    fixDownwardDir ⟨3, 4, -2⟩ = Vec3.normalized ⟨3, 4, 0⟩ :=
  ⟨(C9_fixDownwardDir_spec ⟨0, 0, 1⟩).2.1 (by norm_num),
   (C9_fixDownwardDir_spec ⟨0, 0, -1⟩).2.2.1 (by norm_num) rfl rfl,
   ((C9_fixDownwardDir_spec ⟨3, 4, -2⟩).2.2.2 (by norm_num)
     (by push_neg; intro h; norm_num at h)).1⟩

/-- C10: `isDownwardDir` holds exactly when the z-component is strictly less
than -0.00001, so a z-component within 1e-5 of zero (in particular slightly
negative) is not classified as facing the back of the surface. -/
theorem C10_isDownwardDir_spec (d : Vec3) :
    (isDownwardDir d ↔ d.z < -(1 / 100000)) ∧
    (-(1 / 100000) ≤ d.z → ¬isDownwardDir d) :=
  ⟨Iff.rfl, fun h => not_lt.mpr h⟩

/-- C10 witness: a direction with z-component -0.000005, slightly negative
but within 1e-5 of zero, is not classified as downward. -/
theorem C10_isDownwardDir_witness :
    ¬isDownwardDir ⟨0, 0, -(1 / 200000)⟩ :=
  (C10_isDownwardDir_spec ⟨0, 0, -(1 / 200000)⟩).2 (by norm_num)

/-- C3: after `resizeWavelengths(n)` with positive `n` on a grid whose cell
count equals the product of the axis lengths, every cell's spectrum has
length exactly `n`, the wavelength array has length `n`, and both angle axes
are unchanged in length and values. -/
theorem C3_resizeWavelengths_spec (s : SampleSet2D) (n : ℕ) (s' : SampleSet2D)
    (hn : 0 < n)
    (hinv : s.spectra.length = s.thetaAngles.length * s.phiAngles.length)
    (h : SampleSet2D.resizeWavelengths s n = some s') :
    s'.wavelengths.length = n ∧
    (∀ sp ∈ s'.spectra, sp.length = n) ∧
    s'.thetaAngles = s.thetaAngles ∧
    s'.phiAngles = s.phiAngles := by
  have hle : s.thetaAngles.length * s.phiAngles.length ≤ s.spectra.length :=
    le_of_eq hinv.symm
  simp only [SampleSet2D.resizeWavelengths, if_pos hn, if_pos hle,
    Option.some.injEq] at h
  subst h
  refine ⟨by simp, ?_, rfl, rfl⟩
  intro sp hsp
  rw [List.mapIdx_eq_ofFn, List.mem_ofFn] at hsp
  obtain ⟨i, hget⟩ := hsp
  have hi : (i : ℕ) < s.thetaAngles.length * s.phiAngles.length :=
    hinv ▸ i.isLt
  simp only [if_pos hi] at hget
  rw [← hget]
  simp

/-- C3 witness: resizing the one-cell grid to two wavelengths yields a grid
whose only cell and wavelength array have length 2 and whose axes are
untouched. -/
theorem C3_resizeWavelengths_witness :
    (⟨[0], [0], [[0, 0]], [0, 0], ColorModel.spectral⟩ : SampleSet2D).wavelengths.length = 2 ∧
    (∀ sp ∈ (⟨[0], [0], [[0, 0]], [0, 0], ColorModel.spectral⟩ : SampleSet2D).spectra,
      sp.length = 2) ∧
    (⟨[0], [0], [[0, 0]], [0, 0], ColorModel.spectral⟩ : SampleSet2D).thetaAngles
      = testGrid2DOneCell.thetaAngles ∧
    (⟨[0], [0], [[0, 0]], [0, 0], ColorModel.spectral⟩ : SampleSet2D).phiAngles
      = testGrid2DOneCell.phiAngles :=
  C3_resizeWavelengths_spec testGrid2DOneCell 2
    ⟨[0], [0], [[0, 0]], [0, 0], ColorModel.spectral⟩
    (by norm_num) rfl rfl

/-- C6: the `SampleSet2D` constructor constrains the wavelength count by the
color model — 1 for monochromatic, 3 for the non-spectral RGB-like models,
the requested count for spectral — and allocates the wavelength array and
every cell's spectrum with that constrained length, one cell per
(theta, phi) pair. -/
theorem C6_construct_spec (numTheta numPhi : ℕ) (cm : ColorModel)
    (numWavelengths : ℕ) (equalIntervalAngles : Bool) (s : SampleSet2D)
    (hpos : 0 < numTheta ∧ 0 < numPhi)
    (hw : 0 < SampleSet2D.constrainedWavelengths cm numWavelengths)
    (h : SampleSet2D.construct numTheta numPhi cm numWavelengths
      equalIntervalAngles = some s) :
    s.wavelengths.length = SampleSet2D.constrainedWavelengths cm numWavelengths ∧
    (∀ sp ∈ s.spectra,
      sp.length = SampleSet2D.constrainedWavelengths cm numWavelengths) ∧
    s.spectra.length = numTheta * numPhi ∧
    (cm = ColorModel.monochromatic →
      SampleSet2D.constrainedWavelengths cm numWavelengths = 1) ∧
    (cm ≠ ColorModel.monochromatic → cm ≠ ColorModel.spectral →
      SampleSet2D.constrainedWavelengths cm numWavelengths = 3) ∧
    (cm = ColorModel.spectral →
      SampleSet2D.constrainedWavelengths cm numWavelengths = numWavelengths) := by
  simp only [SampleSet2D.construct, if_pos hpos, if_pos hw,
    Option.some.injEq] at h
  subst h
  refine ⟨by simp, ?_, by simp, ?_, ?_, ?_⟩
  · intro sp hsp
    rw [List.eq_of_mem_replicate hsp]
    simp
  · intro hcm
    simp [SampleSet2D.constrainedWavelengths, hcm]
  · intro h1 h2
    simp [SampleSet2D.constrainedWavelengths, h1, h2]
  · intro hcm
    simp [SampleSet2D.constrainedWavelengths, hcm]

/-- C6 witness: constructing a 1×1 grid with the RGB color model and a
requested wavelength count of 7 allocates a single cell of length 3 and a
wavelength array of length 3. -/
theorem C6_construct_witness :
    (⟨[0], [0], [[0, 0, 0]], [0, 0, 0], ColorModel.rgb⟩ : SampleSet2D).wavelengths.length
      = SampleSet2D.constrainedWavelengths ColorModel.rgb 7 ∧
    (∀ sp ∈ (⟨[0], [0], [[0, 0, 0]], [0, 0, 0], ColorModel.rgb⟩ : SampleSet2D).spectra,
      sp.length = SampleSet2D.constrainedWavelengths ColorModel.rgb 7) ∧
    (⟨[0], [0], [[0, 0, 0]], [0, 0, 0], ColorModel.rgb⟩ : SampleSet2D).spectra.length
      = 1 * 1 ∧
    (ColorModel.rgb = ColorModel.monochromatic →
      SampleSet2D.constrainedWavelengths ColorModel.rgb 7 = 1) ∧
    (ColorModel.rgb ≠ ColorModel.monochromatic → ColorModel.rgb ≠ ColorModel.spectral →
      SampleSet2D.constrainedWavelengths ColorModel.rgb 7 = 3) ∧
    (ColorModel.rgb = ColorModel.spectral →
      SampleSet2D.constrainedWavelengths ColorModel.rgb 7 = 7) :=
  C6_construct_spec 1 1 ColorModel.rgb 7 false
    ⟨[0], [0], [[0, 0, 0]], [0, 0, 0], ColorModel.rgb⟩
    ⟨by norm_num, by norm_num⟩ (by decide) rfl

/-- C7 counterexample: resizing the one-cell grid to the same 1×1 shape is
the identity — in particular its only cell retains its prior spectrum `[5]`,
refuting the claim that all previously stored spectral content is discarded
(`std::vector::resize` keeps the surviving prefix of the cell array). -/
theorem C7_resizeAngles_counterexample :
    SampleSet2D.resizeAngles testGrid2DOneCell 1 1 = some testGrid2DOneCell ∧
    testGrid2DOneCell.spectra = [[5]] :=
  ⟨rfl, rfl⟩

/-- C7 (amended): after `resizeAngles(numTheta, numPhi)` with positive
arguments the cell array has exactly `numTheta * numPhi` cells and the axes
have the requested lengths, but previously stored spectral content is NOT
discarded wholesale: every cell index below both the old cell count and the
new one retains its prior spectrum, and only the newly added cell indices
hold fresh (empty) spectra. -/
theorem C7_resizeAngles_spec (s : SampleSet2D) (numTheta numPhi : ℕ)
    (s' : SampleSet2D) (hpos : 0 < numTheta ∧ 0 < numPhi)
    (h : SampleSet2D.resizeAngles s numTheta numPhi = some s') :
    s'.spectra.length = numTheta * numPhi ∧
    s'.thetaAngles.length = numTheta ∧
    s'.phiAngles.length = numPhi ∧
    (∀ i : ℕ, i < s.spectra.length → i < numTheta * numPhi →
      s'.spectra[i]? = s.spectra[i]?) ∧
    (∀ i : ℕ, s.spectra.length ≤ i → i < numTheta * numPhi →
      s'.spectra[i]? = some []) := by
  simp only [SampleSet2D.resizeAngles, if_pos hpos, Option.some.injEq] at h
  subst h
  refine ⟨?_, ?_, ?_, ?_, ?_⟩
  · simp only [List.length_append, List.length_take, List.length_replicate]
    omega
  · by_cases hth : s.thetaAngles.length = numTheta
    · rw [if_pos hth]; exact hth
    · rw [if_neg hth]; simp
  · by_cases hph : s.phiAngles.length = numPhi
    · rw [if_pos hph]; exact hph
    · rw [if_neg hph]; simp
  · intro i hi hi'
    rw [List.getElem?_append,
      if_pos (by simp only [List.length_take]; omega),
      List.getElem?_take, if_pos hi']
  · intro i hi hi'
    rw [List.getElem?_append,
      if_neg (by simp only [List.length_take]; omega),
      List.getElem?_replicate,
      if_pos (by simp only [List.length_take]; omega)]

/-- C7 witness: growing the one-cell grid to 1×2 keeps the surviving cell's
spectrum `[5]` at index 0 and adds a fresh empty cell at index 1. -/
theorem C7_resizeAngles_witness :
    (⟨[0], [0, 0], [[5], []], [0], ColorModel.spectral⟩ : SampleSet2D).spectra.length
      = 1 * 2 ∧
    (⟨[0], [0, 0], [[5], []], [0], ColorModel.spectral⟩ : SampleSet2D).spectra[0]?
      = testGrid2DOneCell.spectra[0]? ∧
    (⟨[0], [0, 0], [[5], []], [0], ColorModel.spectral⟩ : SampleSet2D).spectra[1]?
      = some [] :=
  ⟨(C7_resizeAngles_spec testGrid2DOneCell 1 2
      ⟨[0], [0, 0], [[5], []], [0], ColorModel.spectral⟩
      ⟨by norm_num, by norm_num⟩ rfl).1,
   (C7_resizeAngles_spec testGrid2DOneCell 1 2
      ⟨[0], [0, 0], [[5], []], [0], ColorModel.spectral⟩
      ⟨by norm_num, by norm_num⟩ rfl).2.2.2.1 0 (by simp [testGrid2DOneCell])
      (by norm_num),
   (C7_resizeAngles_spec testGrid2DOneCell 1 2
      ⟨[0], [0, 0], [[5], []], [0], ColorModel.spectral⟩
      ⟨by norm_num, by norm_num⟩ rfl).2.2.2.2 1 (by simp [testGrid2DOneCell])
      (by norm_num)⟩

/-- A test sample set (isotropic) used to instantiate witness statements. -/
def testSampleSet : SampleSet := ⟨true⟩

/-- A test BRDF used to instantiate witness statements. -/
def testBrdf : Brdf := ⟨⟨false⟩, testCoordSys⟩

/-- C1: every `SampleSet` query path of the `Sampler` — `getSpectrum` and
`getValue`, both the coordinate-system-templated overloads and the `Brdf`
overloads — evaluates the isotropy branch identically: each equals the one
shared dispatch rule `isotropyDispatch` that picks the three-angle conversion
and three-angle interpolation when the grid is isotropic and the four-angle
ones otherwise. -/
theorem C1_sampler_isotropy_dispatch (cs : CoordSys) (interp : Interpolator)
    (samples : SampleSet) (brdf : Brdf) (inDir outDir : Vec3)
    (wavelengthIndex : ℕ) (h : 0 ≤ inDir.z) :
    Sampler.getSpectrumSS cs interp samples inDir outDir
      = some (Sampler.isotropyDispatch cs (interp.getSpectrum3 samples)
          (interp.getSpectrum4 samples) samples.isotropic inDir outDir) ∧
    Sampler.getValueSS cs interp samples inDir outDir wavelengthIndex
      = some (Sampler.isotropyDispatch cs
          (fun a0 a2 a3 => interp.getValue3 samples a0 a2 a3 wavelengthIndex)
          (fun a0 a1 a2 a3 =>
            interp.getValue4 samples a0 a1 a2 a3 wavelengthIndex)
          samples.isotropic inDir outDir) ∧
    Sampler.getSpectrumBrdf interp brdf inDir outDir
      = some (Sampler.isotropyDispatch brdf.coordSys
          (interp.getSpectrum3 brdf.sampleSet)
          (interp.getSpectrum4 brdf.sampleSet)
          brdf.sampleSet.isotropic inDir outDir) ∧
    Sampler.getValueBrdf interp brdf inDir outDir wavelengthIndex
      = some (Sampler.isotropyDispatch brdf.coordSys
          (fun a0 a2 a3 =>
            interp.getValue3 brdf.sampleSet a0 a2 a3 wavelengthIndex)
          (fun a0 a1 a2 a3 =>
            interp.getValue4 brdf.sampleSet a0 a1 a2 a3 wavelengthIndex)
          brdf.sampleSet.isotropic inDir outDir) := by
  refine ⟨?_, ?_, ?_, ?_⟩ <;>
    simp only [Sampler.getSpectrumSS, Sampler.getValueSS,
      Sampler.getSpectrumBrdf, Sampler.getValueBrdf,
      Sampler.isotropyDispatch, if_pos h] <;>
    split <;> rfl

/-- C1 witness: the templated `getSpectrum` overload at a concrete coordinate
system, interpolator, isotropic sample set and upward direction follows the
shared dispatch rule. -/
theorem C1_sampler_isotropy_dispatch_witness :
    Sampler.getSpectrumSS testCoordSys testInterpolator testSampleSet
        ⟨0, 0, 1⟩ ⟨0, 0, 1⟩
      = some (Sampler.isotropyDispatch testCoordSys
          (testInterpolator.getSpectrum3 testSampleSet)
          (testInterpolator.getSpectrum4 testSampleSet)
          testSampleSet.isotropic ⟨0, 0, 1⟩ ⟨0, 0, 1⟩) :=
  (C1_sampler_isotropy_dispatch testCoordSys testInterpolator testSampleSet
    testBrdf ⟨0, 0, 1⟩ ⟨0, 0, 1⟩ 0 (by norm_num)).1

/-- C4 counterexample: the 2-axis `SampleSet2D` overload of
`Sampler::getSpectrum` contains no assertion at all — on a direction with
z-component -1 (violating `inDir.z ≥ 0`) it still produces a result instead
of failing fast. -/
theorem C4_assert_counterexample :
    Sampler.getSpectrumSS2 testInterpolator2D testGrid2DIso ⟨0, 0, -1⟩
      = some [] :=
  rfl

/-- C4 (amended): the four `SampleSet` and `Brdf` overloads of
`Sampler::getSpectrum`/`getValue` all check the precondition `inDir.z ≥ 0`
and fail fast in debug builds when it is violated, but the 2-axis
`SampleSet2D` overload performs no such check and still returns a value. -/
theorem C4_assert_spec (cs : CoordSys) (interp : Interpolator)
    (samples : SampleSet) (brdf : Brdf) (interp2 : Interpolator2D)
    (ss2 : SampleSet2D) (inDir outDir : Vec3) (wavelengthIndex : ℕ)
    (h : inDir.z < 0) :
    Sampler.getSpectrumSS cs interp samples inDir outDir = none ∧
    Sampler.getValueSS cs interp samples inDir outDir wavelengthIndex = none ∧
    Sampler.getSpectrumBrdf interp brdf inDir outDir = none ∧
    Sampler.getValueBrdf interp brdf inDir outDir wavelengthIndex = none ∧
    (Sampler.getSpectrumSS2 interp2 ss2 inDir).isSome = true := by
  have hn : ¬(0 ≤ inDir.z) := not_le.mpr h
  refine ⟨?_, ?_, ?_, ?_, ?_⟩
  · rw [Sampler.getSpectrumSS, if_neg hn]
  · rw [Sampler.getValueSS, if_neg hn]
  · rw [Sampler.getSpectrumBrdf, if_neg hn]
  · rw [Sampler.getValueBrdf, if_neg hn]
  · rw [Sampler.getSpectrumSS2]
    split <;> rfl

/-- C4 witness: at the downward direction with z-component -1, the four
asserting overloads fail and the 2-axis overload still answers. -/
theorem C4_assert_spec_witness :
    Sampler.getSpectrumSS testCoordSys testInterpolator testSampleSet
        ⟨0, 0, -1⟩ ⟨0, 0, 1⟩ = none ∧
    (Sampler.getSpectrumSS2 testInterpolator2D testGrid2DAniso
        ⟨0, 0, -1⟩).isSome = true :=
  ⟨(C4_assert_spec testCoordSys testInterpolator testSampleSet testBrdf
      testInterpolator2D testGrid2DAniso ⟨0, 0, -1⟩ ⟨0, 0, 1⟩ 0
      (by norm_num)).1,
   (C4_assert_spec testCoordSys testInterpolator testSampleSet testBrdf
      testInterpolator2D testGrid2DAniso ⟨0, 0, -1⟩ ⟨0, 0, 1⟩ 0
      (by norm_num)).2.2.2.2⟩

/-- C5: the `SampleSet2D` overload of `Sampler::getSpectrum` uses only the
polar angle `acos(inDir.z)` when the grid is isotropic — so the result is
invariant in every other component of the direction — and uses both the
polar and azimuthal angles of the spherical conversion when the grid is
anisotropic. -/
theorem C5_ss2_dispatch (interp : Interpolator2D) (ss2 : SampleSet2D)
    (inDir : Vec3) :
    (ss2.isIsotropic = true →
      Sampler.getSpectrumSS2 interp ss2 inDir
        = some (interp.getSpectrum1 ss2 (Real.arccos inDir.z)) ∧
      ∀ inDir2 : Vec3, inDir2.z = inDir.z →
        Sampler.getSpectrumSS2 interp ss2 inDir2
          = Sampler.getSpectrumSS2 interp ss2 inDir) ∧
    (ss2.isIsotropic = false →
      Sampler.getSpectrumSS2 interp ss2 inDir
        = some (interp.getSpectrum2 ss2 (Real.arccos inDir.z)
            (SphericalCoordinateSystem.azimuth inDir))) := by
  constructor
  · intro hiso
    constructor
    · rw [Sampler.getSpectrumSS2, if_pos hiso]
    · intro inDir2 hz
      rw [Sampler.getSpectrumSS2, if_pos hiso,
        Sampler.getSpectrumSS2, if_pos hiso, hz]
  · intro haniso
    rw [Sampler.getSpectrumSS2, if_neg (by rw [haniso]; exact Bool.false_ne_true)]
    rfl

/-- C5 witness: on the concrete isotropic grid the overload reduces to the
one-angle interpolation of `acos(inDir.z)` and ignores the x- and
y-components; on the concrete anisotropic grid it uses both spherical
angles. -/
theorem C5_ss2_dispatch_witness :
    Sampler.getSpectrumSS2 testInterpolator2D testGrid2DIso ⟨0, 0, 1⟩
      = some (testInterpolator2D.getSpectrum1 testGrid2DIso
          (Real.arccos 1)) ∧
    Sampler.getSpectrumSS2 testInterpolator2D testGrid2DAniso ⟨0, 0, 1⟩
      = some (testInterpolator2D.getSpectrum2 testGrid2DAniso
          (Real.arccos 1)
          (SphericalCoordinateSystem.azimuth ⟨0, 0, 1⟩)) :=
  ⟨((C5_ss2_dispatch testInterpolator2D testGrid2DIso ⟨0, 0, 1⟩).1 rfl).1,
   (C5_ss2_dispatch testInterpolator2D testGrid2DAniso ⟨0, 0, 1⟩).2 rfl⟩

/-- C2 counterexample: the round-trip law fails on the boundary of the valid
domain: for the angle tuple (0, 1, π/2, 0) — polar angle 0 with a nonzero
azimuth — `convertCoordinateSystem` with the spherical system as both source
and destination collapses the azimuth to 0, and 0 is not within the
library's numerical tolerance (`isEqual`) of the input azimuth 1. -/
theorem C2_convert_roundtrip_counterexample :
    convertCoordinateSystem SphericalCoordinateSystem.coordSys
        SphericalCoordinateSystem.coordSys 0 1 (Real.pi / 2) 0
      = (0, 0, Real.pi / 2, 0) ∧ ¬isEqual 0 1 := by
  constructor
  · have hd1 : SphericalCoordinateSystem.dirFromAngles 0 1 = ⟨0, 0, 1⟩ := by
      unfold SphericalCoordinateSystem.dirFromAngles
      norm_num
    have hd2 : SphericalCoordinateSystem.dirFromAngles (Real.pi / 2) 0
        = ⟨1, 0, 0⟩ := by
      unfold SphericalCoordinateSystem.dirFromAngles
      norm_num [Real.sin_pi_div_two, Real.cos_pi_div_two]
    have ha1 : SphericalCoordinateSystem.azimuth ⟨0, 0, 1⟩ = 0 := by
      unfold SphericalCoordinateSystem.azimuth
      have h0 : (⟨(0 : ℝ), (0 : ℝ)⟩ : ℂ) = 0 := Complex.ext rfl rfl
      simp only [h0, Complex.arg_zero, lt_self_iff_false, if_false]
    have ha2 : SphericalCoordinateSystem.azimuth ⟨1, 0, 0⟩ = 0 := by
      unfold SphericalCoordinateSystem.azimuth
      have h1 : (⟨(1 : ℝ), (0 : ℝ)⟩ : ℂ) = 1 := Complex.ext rfl rfl
      simp only [h1, Complex.arg_one, lt_self_iff_false, if_false]
    show SphericalCoordinateSystem.fromXyz
        (SphericalCoordinateSystem.dirFromAngles 0 1)
        (SphericalCoordinateSystem.dirFromAngles (Real.pi / 2) 0)
      = (0, 0, Real.pi / 2, 0)
    rw [hd1, hd2]
    unfold SphericalCoordinateSystem.fromXyz
      SphericalCoordinateSystem.anglesFromDir
    simp only [ha1, ha2]
    norm_num [Real.arccos_one, Real.arccos_zero]
  · unfold isEqual EPSILON_F
    norm_num

/-- C2 (amended): over the real-number model the round trip
`fromXyz(toXyz(a)) = a` holds exactly — hence within any tolerance — through
`convertCoordinateSystem` with the spherical system as both source and
destination, for every angle tuple whose polar angles lie in `(0, π/2]` and
whose azimuths lie in `[0, 2π)`; a polar angle of exactly 0 must be excluded,
since there the azimuth is collapsed rather than recovered. -/
theorem C2_convert_roundtrip (a0 a1 a2 a3 : ℝ)
    (h00 : 0 < a0) (h01 : a0 ≤ Real.pi / 2)
    (h10 : 0 ≤ a1) (h11 : a1 < 2 * Real.pi)
    (h20 : 0 < a2) (h21 : a2 ≤ Real.pi / 2)
    (h30 : 0 ≤ a3) (h31 : a3 < 2 * Real.pi) :
    convertCoordinateSystem SphericalCoordinateSystem.coordSys
      SphericalCoordinateSystem.coordSys a0 a1 a2 a3 = (a0, a1, a2, a3) := by
  have hpi : Real.pi / 2 < Real.pi := by linarith [Real.pi_pos]
  have hs0 : 0 < Real.sin a0 :=
    Real.sin_pos_of_pos_of_lt_pi h00 (lt_of_le_of_lt h01 hpi)
  have hs2 : 0 < Real.sin a2 :=
    Real.sin_pos_of_pos_of_lt_pi h20 (lt_of_le_of_lt h21 hpi)
  have h1 := SphericalCoordinateSystem.anglesFromDir_dirFromAngles h00
    (le_of_lt (lt_of_le_of_lt h01 hpi)) h10 h11 hs0
  have h2 := SphericalCoordinateSystem.anglesFromDir_dirFromAngles h20
    (le_of_lt (lt_of_le_of_lt h21 hpi)) h30 h31 hs2
  show SphericalCoordinateSystem.fromXyz
      (SphericalCoordinateSystem.dirFromAngles a0 a1)
      (SphericalCoordinateSystem.dirFromAngles a2 a3) = (a0, a1, a2, a3)
  unfold SphericalCoordinateSystem.fromXyz
  rw [h1, h2]

/-- C2 witness: the round trip at the concrete in-domain tuple
(π/2, 0, π/2, 0). -/
theorem C2_convert_roundtrip_witness :
    convertCoordinateSystem SphericalCoordinateSystem.coordSys
      SphericalCoordinateSystem.coordSys (Real.pi / 2) 0 (Real.pi / 2) 0
      = (Real.pi / 2, 0, Real.pi / 2, 0) :=
  C2_convert_roundtrip (Real.pi / 2) 0 (Real.pi / 2) 0
    (by positivity) le_rfl (by norm_num) (by positivity)
    (by positivity) le_rfl (by norm_num) (by positivity)

/-- C8 counterexample: at the grazing incoming direction (1, 0, 0) — a unit
vector with `inDir.z = 0 ≥ 0` — and outgoing direction (0, 0, 1) with
roughness 1, the denominator `sqrt(dotLN * dotVN)` of
`WardAnisotropic::getResult` is exactly zero: nothing floors it away from
zero, and the float computation divides by zero (modelled by `none`). -/
theorem C8_ward_counterexample :
    WardAnisotropic.getValue ⟨1, 0, 0⟩ ⟨0, 0, 1⟩ 1 1 = none := by
  have hadd : ((⟨1, 0, 0⟩ : Vec3) + ⟨0, 0, 1⟩) = (⟨1, 0, 1⟩ : Vec3) := by
    rw [Vec3.add_def]
    norm_num
  have hnorm : (⟨1, 0, 1⟩ : Vec3).norm = Real.sqrt 2 := by
    unfold Vec3.norm Vec3.dot
    norm_num
  have hne : (⟨1, 0, 1⟩ : Vec3).norm ≠ 0 := by
    rw [hnorm]
    positivity
  have hLN : (⟨1, 0, 0⟩ : Vec3).dot ⟨0, 0, 1⟩ = 0 := by
    unfold Vec3.dot
    norm_num
  have hVN : (⟨0, 0, 1⟩ : Vec3).dot ⟨0, 0, 1⟩ = 1 := by
    unfold Vec3.dot
    norm_num
  simp only [WardAnisotropic.getValue, WardAnisotropic.getResult, hadd,
    hLN, hVN]
  rw [if_neg hne,
    if_neg (by norm_num : ¬((1 : ℝ) = 0 ∨ (1 : ℝ) = 0)),
    if_pos (by norm_num : Real.sqrt (0 * 1) = 0)]

/-- C8 (amended): `WardAnisotropic::getResult` in the standard shading frame
has no denominator floor; its value is finite (no non-finite subcomputation,
modelled by a `some` result) for unit directions whose z-components are
BOTH strictly positive and positive roughness parameters — strict positivity
is required, since at a grazing direction (z-component 0) the denominator
`sqrt(dotLN * dotVN)` vanishes. -/
theorem C8_ward_spec (inDir outDir : Vec3) (roughnessX roughnessY : ℝ)
    (hin : inDir.dot inDir = 1) (hout : outDir.dot outDir = 1)
    (hiz : 0 < inDir.z) (hoz : 0 < outDir.z)
    (hrx : 0 < roughnessX) (hry : 0 < roughnessY) :
    (WardAnisotropic.getValue inDir outDir roughnessX roughnessY).isSome
      = true := by
  simp only [WardAnisotropic.getValue, WardAnisotropic.getResult]
  have hdot : (inDir + outDir).dot (inDir + outDir)
      = (inDir.x + outDir.x) * (inDir.x + outDir.x)
      + (inDir.y + outDir.y) * (inDir.y + outDir.y)
      + (inDir.z + outDir.z) * (inDir.z + outDir.z) := rfl
  have hzz : 0 < (inDir.z + outDir.z) * (inDir.z + outDir.z) :=
    mul_pos (by linarith) (by linarith)
  have hpos : 0 < (inDir + outDir).dot (inDir + outDir) := by
    rw [hdot]
    nlinarith [mul_self_nonneg (inDir.x + outDir.x),
      mul_self_nonneg (inDir.y + outDir.y)]
  have hnorm : 0 < (inDir + outDir).norm := Real.sqrt_pos.mpr hpos
  have hLN : inDir.dot ⟨0, 0, 1⟩ = inDir.z := by
    unfold Vec3.dot
    ring
  have hVN : outDir.dot ⟨0, 0, 1⟩ = outDir.z := by
    unfold Vec3.dot
    ring
  have hsq : 0 < Real.sqrt (inDir.z * outDir.z) :=
    Real.sqrt_pos.mpr (mul_pos hiz hoz)
  have hsz : (inDir + outDir).z = inDir.z + outDir.z := rfl
  have hHN : (Vec3.normalized (inDir + outDir)).dot ⟨0, 0, 1⟩
      = (inDir.z + outDir.z) / (inDir + outDir).norm := by
    show (inDir + outDir).x / (inDir + outDir).norm * 0
        + (inDir + outDir).y / (inDir + outDir).norm * 0
        + (inDir + outDir).z / (inDir + outDir).norm * 1
        = (inDir.z + outDir.z) / (inDir + outDir).norm
    rw [hsz]
    ring
  have h1HN : 1 + (Vec3.normalized (inDir + outDir)).dot ⟨0, 0, 1⟩ ≠ 0 := by
    rw [hHN]
    have : 0 < (inDir.z + outDir.z) / (inDir + outDir).norm :=
      div_pos (by linarith) hnorm
    linarith
  rw [if_neg (ne_of_gt hnorm),
    if_neg (by push_neg; exact ⟨ne_of_gt hrx, ne_of_gt hry⟩),
    hLN, hVN, if_neg (ne_of_gt hsq), if_neg h1HN]
  rfl

/-- C8 witness: at normal incidence and exitance (both directions the unit
z-vector) with roughness 1, the Ward value is defined. -/
theorem C8_ward_spec_witness :
    (WardAnisotropic.getValue ⟨0, 0, 1⟩ ⟨0, 0, 1⟩ 1 1).isSome = true :=
  C8_ward_spec ⟨0, 0, 1⟩ ⟨0, 0, 1⟩ 1 1
    (by unfold Vec3.dot; norm_num) (by unfold Vec3.dot; norm_num)
    (by norm_num) (by norm_num) (by norm_num) (by norm_num)

end Libbsdf
